import Mathlib

/-!
Shallow embedding of `src/neo4j_bench.py` (flat schema variant) and
`src/neo4j_bench_optimized.py` (temporal-partitioned variant) of the
`ne04j_perf_test` repository, together with proofs about the claims on the
workload generator, the resource monitor, the batch importer's retry loop,
the percentile computation and the concurrency load runner.

Numeric values that are Python `float`/`int` are embedded as `ℚ` (or `ℝ`
where `math.sqrt` forces it); the pseudo-random draws `random.random()`
(uniform in `[0,1)`) are threaded explicitly as parameters.
-/

namespace Neo4jBench

/-! ### Constants (src/neo4j_bench.py lines 27-28, 137, 168) -/

/-- `ZIPF_SKEW = 2.0`: the skew exponent applied to a uniform draw. -/
def ZIPF_SKEW : ℕ := 2

/-- `365 * 24 * 3600`, the one-year window in seconds. -/
def yearSeconds : ℕ := 365 * 24 * 3600

/-! ### DataGenerator (src/neo4j_bench.py lines 133-185) -/

/-- `int(num_accounts * (u ** S))` for a general skew exponent `S`;
`DataGenerator._pick_account_id` instantiates `S := ZIPF_SKEW`.  The Python
`int(...)` truncation coincides with the floor because the argument is
non-negative. -/
def pick_account_id_skew (num_accounts S : ℕ) (u : ℚ) : ℤ :=
  ⌊(num_accounts : ℚ) * u ^ S⌋

/-- `DataGenerator._pick_account_id` (lines 155-161):
`int(self.num_accounts * (random.random() ** ZIPF_SKEW))`. -/
def pick_account_id (num_accounts : ℕ) (u : ℚ) : ℤ :=
  pick_account_id_skew num_accounts ZIPF_SKEW u

/-- `int((365 * 24 * 3600) * math.sqrt(random.random()))`
(line 168 of `generate_transactions`). -/
noncomputable def temporal_offset (u : ℝ) : ℤ :=
  ⌊(yearSeconds : ℝ) * Real.sqrt u⌋

/-- An account record as built in `generate_accounts` (lines 142-148). -/
structure Account where
  id : ℕ
  name : String
  type : String
  created_at : ℤ
deriving DecidableEq

/-- The record appended for index `i` in `generate_accounts`;
`r` is the `random.randint(0, 30*24*3600)` draw. -/
def account_record (start_time : ℤ) (i : ℕ) (r : ℤ) : Account :=
  { id := i
    name := "Acc_" ++ toString i
    type := if i % 10 ≠ 0 then "Standard" else "Premium"
    created_at := start_time + r }

/-- A transaction record as built in `generate_transactions` (lines 171-179). -/
structure Transaction where
  id : ℕ
  amount : ℚ
  ts : ℤ
  currency : String
  status : String
  from_acc : ℤ
  to_acc : ℤ

/-- The record appended for index `i` in `generate_transactions`;
`uTime`, `uAmt`, `uFrom`, `uTo` are the four uniform draws it consumes
(`random.uniform(1.0, 10000.0) = 1 + uAmt * 9999`). -/
noncomputable def transaction_record (num_accounts : ℕ) (start_time : ℤ) (i : ℕ)
    (uTime : ℝ) (uAmt uFrom uTo : ℚ) : Transaction :=
  { id := i
    amount := 1 + uAmt * 9999
    ts := start_time + temporal_offset uTime
    currency := "USD"
    status := "COMPLETED"
    from_acc := pick_account_id num_accounts uFrom
    to_acc := pick_account_id num_accounts uTo }

/-- One iteration of the batching loop shared by `generate_accounts` and
`generate_transactions`: append the record to the current batch and, when
`len(batch) >= batch_size`, emit it and start a fresh batch. -/
def batch_step (batch_size : ℕ) (acc : List (List α) × List α) (r : α) :
    List (List α) × List α :=
  let batch := acc.2 ++ [r]
  if batch_size ≤ batch.length then (acc.1 ++ [batch], []) else (acc.1, batch)

/-- The full batching loop: fold over the records and emit the final partial
batch if it is non-empty (`if batch: yield batch`). -/
def yield_batches (batch_size : ℕ) (records : List α) : List (List α) :=
  let p := records.foldl (batch_step batch_size) ([], [])
  if p.2.isEmpty then p.1 else p.1 ++ [p.2]

/-- `DataGenerator.generate_accounts` (lines 139-153):
the list of yielded batches, with the `randint` draws passed in as `rand`. -/
def generate_accounts (num_accounts : ℕ) (start_time : ℤ) (rand : ℕ → ℤ)
    (batch_size : ℕ) : List (List Account) :=
  yield_batches batch_size
    ((List.range num_accounts).map (fun i => account_record start_time i (rand i)))

/-- `DataGenerator.generate_transactions` (lines 163-185): the list of yielded
batches, with the four per-record uniform draws passed in as streams. -/
noncomputable def generate_transactions (num_accounts num_transactions : ℕ)
    (start_time : ℤ) (uTime : ℕ → ℝ) (uAmt uFrom uTo : ℕ → ℚ)
    (batch_size : ℕ) : List (List Transaction) :=
  yield_batches batch_size
    ((List.range num_transactions).map (fun i =>
      transaction_record num_accounts start_time i (uTime i) (uAmt i) (uFrom i) (uTo i)))

/-! ### Neo4jClient._run_batch (src/neo4j_bench.py lines 235-246; identical in
src/neo4j_bench_optimized.py lines 313-324)

The store call is abstracted as a function from the attempt number (0-based)
to its outcome: success, a transient/unavailable error (`ServiceUnavailable`,
`TransientError`), or any other error. -/

inductive StoreOutcome where
  | ok
  | transient
  | other
deriving DecidableEq

inductive RunResult where
  | success
  | raisedExhausted
  | raisedOther
deriving DecidableEq

/-- Observable behaviour of one `_run_batch` call: how it ended, how many
`session.run` attempts were made, and the total `time.sleep` seconds. -/
structure RunReport where
  result : RunResult
  attempts : ℕ
  sleep_seconds : ℕ
deriving DecidableEq

/-- The `while retries > 0` loop of `_run_batch`: on success return; on a
transient error decrement `retries`, sleep 2 seconds and loop; on any other
error the exception propagates immediately.  When the loop exits,
`raise Exception("Failed to import batch after retries")`. -/
def run_batch_aux (execute : ℕ → StoreOutcome) :
    ℕ → ℕ → ℕ → RunReport
  | 0, attempts, slept => ⟨.raisedExhausted, attempts, slept⟩
  | retries + 1, attempts, slept =>
    match execute attempts with
    | .ok => ⟨.success, attempts + 1, slept⟩
    | .other => ⟨.raisedOther, attempts + 1, slept⟩
    | .transient => run_batch_aux execute retries (attempts + 1) (slept + 2)

/-- `Neo4jClient._run_batch` / `OptimizedNeo4jClient._run_batch`:
`retries = 3` then the retry loop. -/
def run_batch (execute : ℕ → StoreOutcome) : RunReport :=
  run_batch_aux execute 3 0 0

/-- `run_batch` only inspects the outcomes of attempts `0, 1, 2`: two stores
agreeing on the first `retries` attempts produce the same report. -/
theorem run_batch_aux_congr (f g : ℕ → StoreOutcome) :
    ∀ (retries attempts slept : ℕ),
      (∀ n, attempts ≤ n → n < attempts + retries → f n = g n) →
      run_batch_aux f retries attempts slept = run_batch_aux g retries attempts slept := by
  intro retries
  induction retries with
  | zero => intro attempts slept _; rfl
  | succ r ih =>
    intro attempts slept h
    have h0 : f attempts = g attempts := h attempts le_rfl (by omega)
    simp only [run_batch_aux]
    rw [h0]
    cases hg : g attempts with
    | ok => rfl
    | other => rfl
    | transient =>
      exact ih (attempts + 1) (slept + 2) (fun n h1 h2 => h n (by omega) (by omega))

/-! ### run_concurrency_test (src/neo4j_bench.py lines 358-383; identical in
src/neo4j_bench_optimized.py lines 430-455)

Each worker thread runs `results["ops"] += 1` after a successful lookup.
In CPython that statement is a read of the shared counter followed by a
write of `read value + 1`, and a thread switch may occur between the two.
We model each worker as performing `ops_left` successful lookups, each one
being a *load* micro-step followed by a *store* micro-step on the shared
counter; a schedule is the interleaving of the workers' micro-steps. -/

structure WorkerState where
  /-- successful lookups this worker has still to count -/
  ops_left : ℕ
  /-- value of the shared counter read but not yet written back -/
  loaded : Option ℕ
deriving DecidableEq

/-- One micro-step of a worker: if it holds a loaded value, store
`loaded + 1` into the shared counter; otherwise, if lookups remain, load the
shared counter. -/
def micro_step (shared : ℕ) (w : WorkerState) : ℕ × WorkerState :=
  match w.loaded with
  | some v => (v + 1, { w with loaded := none })
  | none =>
    match w.ops_left with
    | 0 => (shared, w)
    | n + 1 => (shared, { ops_left := n, loaded := some shared })

structure RunState where
  shared_ops : ℕ
  workers : List WorkerState
deriving DecidableEq

/-- Run worker `i` (if it exists) for one micro-step. -/
def sched_step (st : RunState) (i : ℕ) : RunState :=
  match st.workers.get? i with
  | none => st
  | some w =>
    let p := micro_step st.shared_ops w
    { shared_ops := p.1, workers := st.workers.set i p.2 }

/-- The unsynchronized shared-counter protocol of `run_concurrency_test`
executed under an explicit interleaving of the workers' micro-steps. -/
def run_concurrency_unsync (ops_per_worker : List ℕ) (schedule : List ℕ) : RunState :=
  schedule.foldl sched_step ⟨0, ops_per_worker.map (fun n => ⟨n, none⟩)⟩

/-! ### Benchmark._calc_percentiles (src/neo4j_bench.py lines 385-393) -/

/-- `int(n * k)` for `0 ≤ k`: Python `int` truncation equals the floor on
non-negative arguments. -/
def percentile_index (n : ℕ) (k : ℚ) : ℕ :=
  (⌊(n : ℚ) * k⌋).toNat

/-- `Benchmark._calc_percentiles`: empty input returns the empty mapping;
otherwise sort ascending and index at `int(n*0.5)`, `int(n*0.9)`,
`int(n*0.99)`.  (Out-of-range indexing would raise in Python; the indices
are proved in bounds, so the `getD` default is never taken.) -/
def calc_percentiles (data : List ℚ) : Option (ℚ × ℚ × ℚ) :=
  if data.isEmpty then none
  else
    some ((data.insertionSort (· ≤ ·)).getD (percentile_index data.length (1/2)) 0,
          (data.insertionSort (· ≤ ·)).getD (percentile_index data.length (9/10)) 0,
          (data.insertionSort (· ≤ ·)).getD (percentile_index data.length (99/100)) 0)

theorem percentile_index_lt (n : ℕ) (hn : 0 < n) (k : ℚ) (hk1 : k < 1) :
    percentile_index n k < n := by
  have h1 : ⌊(n : ℚ) * k⌋ < (n : ℤ) := by
    apply Int.floor_lt.mpr
    push_cast
    calc (n : ℚ) * k < (n : ℚ) * 1 :=
          mul_lt_mul_of_pos_left hk1 (by exact_mod_cast hn)
      _ = n := mul_one _
  unfold percentile_index
  omega

theorem percentile_index_mono (n : ℕ) {k1 k2 : ℚ} (h : k1 ≤ k2) :
    percentile_index n k1 ≤ percentile_index n k2 := by
  have h1 : ⌊(n : ℚ) * k1⌋ ≤ ⌊(n : ℚ) * k2⌋ :=
    Int.floor_le_floor (mul_le_mul_of_nonneg_left h (by positivity))
  unfold percentile_index
  omega

theorem sorted_getD_mono (l : List ℚ) (hs : l.Sorted (· ≤ ·)) {i j : ℕ}
    (hij : i ≤ j) (hj : j < l.length) :
    l.getD i 0 ≤ l.getD j 0 := by
  have hi : i < l.length := lt_of_le_of_lt hij hj
  rw [List.getD_eq_get l 0 hi, List.getD_eq_get l 0 hj]
  exact hs.rel_get_of_le (by exact hij)

theorem getD_mem_of_lt (l : List ℚ) {i : ℕ} (hi : i < l.length) :
    l.getD i 0 ∈ l := by
  rw [List.getD_eq_get l 0 hi]
  exact List.get_mem l i hi

/-! ### SystemMonitor (src/neo4j_bench.py lines 34-127)

The `/proc` filesystem is modelled as a partial map from path to content
(`none` = the file is missing or unreadable, in which case
`_read_proc_file` returns `""`).  A Python exception raised while parsing
(e.g. `float(...)` on garbage) is modelled as `Except.error`. -/

/-- `SystemMonitor._read_proc_file`: return the content, or `""` on any
read failure. -/
def read_proc_file (files : String → Option String) (path : String) : String :=
  (files path).getD ""

/-- Python `str.splitlines` (on `\n`-separated proc content). -/
def splitlines (s : String) : List String :=
  if s = "" then [] else s.splitOn "\n"

/-- Python `str.split()` with no argument: split on whitespace runs,
discarding empty fields. -/
def py_split (s : String) : List String :=
  (s.splitOn " ").filter (fun t => !t.isEmpty)

/-- Python `float(...)`/`int(...)` on a proc counter field (a decimal
natural); `none` models the `ValueError` raise. -/
def py_float (s : String) : Option ℚ :=
  (s.toNat?).map (fun n => (n : ℚ))

/-- Python `sub in s` substring containment. -/
def contains_sub (s sub : String) : Bool :=
  1 < (s.splitOn sub).length

/-- `SystemMonitor._get_cpu_times` (lines 46-59): find the aggregate
`cpu ` line of `/proc/stat`, parse all fields, return `(total, idle)`
with `idle = values[3]`; `(0, 0)` if no such line. -/
def get_cpu_times (content : String) : Except String (ℚ × ℚ) :=
  match (splitlines content).find? (fun l => l.startsWith "cpu ") with
  | none => .ok (0, 0)
  | some line =>
    match ((py_split line).drop 1).mapM py_float with
    | none => .error "ValueError"
    | some values =>
      match values.get? 3 with
      | none => .error "IndexError"
      | some idle => .ok (values.sum, idle)

/-- Device-name substrings treated as storage devices (line 70). -/
def disk_devices : List String := ["nvme", "sd", "vd", "xvd"]

/-- One line of the `/proc/diskstats` loop (lines 66-73): skip lines with
fewer than 14 fields; for storage devices accumulate sectors read
(field 5) and written (field 9). -/
def disk_line (acc : ℚ × ℚ) (line : String) : Except String (ℚ × ℚ) :=
  let parts := py_split line
  if parts.length < 14 then .ok acc
  else if disk_devices.any (fun x => contains_sub (parts.getD 2 "") x) then
    match py_float (parts.getD 5 ""), py_float (parts.getD 9 "") with
    | some r, some w => .ok (acc.1 + r, acc.2 + w)
    | _, _ => .error "ValueError"
  else .ok acc

/-- `SystemMonitor._get_disk_io` (lines 61-74): sum sectors over all lines
and convert to bytes (`* 512`). -/
def get_disk_io (content : String) : Except String (ℚ × ℚ) :=
  match (splitlines content).foldlM disk_line ((0 : ℚ), (0 : ℚ)) with
  | .error e => .error e
  | .ok p => .ok (p.1 * 512, p.2 * 512)

/-- One line of the `/proc/meminfo` loop (lines 80-84). -/
def mem_line (acc : ℚ × ℚ) (line : String) : Except String (ℚ × ℚ) :=
  let step1 : Except String (ℚ × ℚ) :=
    if contains_sub line "MemTotal" then
      match py_float ((py_split line).getD 1 "") with
      | some v => .ok (v, acc.2)
      | none => .error "ValueError"
    else .ok acc
  match step1 with
  | .error e => .error e
  | .ok a =>
    if contains_sub line "MemAvailable" then
      match py_float ((py_split line).getD 1 "") with
      | some v => .ok (a.1, v)
      | none => .error "ValueError"
    else .ok a

/-- `SystemMonitor._get_mem_info` (lines 76-85): returns
`(mem_total, mem_total - mem_avail)`. -/
def get_mem_info (content : String) : Except String (ℚ × ℚ) :=
  match (splitlines content).foldlM mem_line ((0 : ℚ), (0 : ℚ)) with
  | .error e => .error e
  | .ok p => .ok (p.1, p.1 - p.2)

/-- A raw monitor snapshot (`SystemMonitor._capture_stats`, lines 87-99). -/
structure Stats where
  time : ℚ
  cpu_total : ℚ
  cpu_idle : ℚ
  disk_read_bytes : ℚ
  disk_write_bytes : ℚ
  mem_total_kb : ℚ
  mem_used_kb : ℚ
deriving DecidableEq

/-- `SystemMonitor._capture_stats`: read and parse the three proc files;
`t` is the `time.time()` value. -/
def capture_stats (files : String → Option String) (t : ℚ) : Except String Stats :=
  match get_cpu_times (read_proc_file files "/proc/stat") with
  | .error e => .error e
  | .ok c =>
    match get_disk_io (read_proc_file files "/proc/diskstats") with
    | .error e => .error e
    | .ok d =>
      match get_mem_info (read_proc_file files "/proc/meminfo") with
      | .error e => .error e
      | .ok m =>
        .ok { time := t, cpu_total := c.1, cpu_idle := c.2,
              disk_read_bytes := d.1, disk_write_bytes := d.2,
              mem_total_kb := m.1, mem_used_kb := m.2 }

/-- Round-half-to-even on `ℚ`, the semantics of Python's builtin `round`. -/
def round_half_even (x : ℚ) : ℤ :=
  let f := ⌊x⌋
  let r := x - f
  if r < 1/2 then f
  else if 1/2 < r then f + 1
  else if f % 2 = 0 then f else f + 1

/-- Python `round(x, 2)`. -/
def py_round2 (x : ℚ) : ℚ :=
  (round_half_even (x * 100) : ℚ) / 100

/-- The derived metrics returned by `SystemMonitor.get_metrics`. -/
structure Metrics where
  cpu_load_percent : ℚ
  memory_used_gb : ℚ
  disk_read_mb_s : ℚ
  disk_write_mb_s : ℚ
deriving DecidableEq

/-- `SystemMonitor.get_metrics` (lines 104-127) on the two snapshots, with
the `duration <= 0 → duration = 1` clamp and the `delta_total > 0` guard
inlined at their use sites. -/
def get_metrics (s e : Stats) : Metrics :=
  { cpu_load_percent :=
      py_round2 (if 0 < e.cpu_total - s.cpu_total
        then 100 * (1 - (e.cpu_idle - s.cpu_idle) / (e.cpu_total - s.cpu_total))
        else 0)
    memory_used_gb := py_round2 (e.mem_used_kb / (1024 * 1024))
    disk_read_mb_s := py_round2 ((e.disk_read_bytes - s.disk_read_bytes) /
      (if e.time - s.time ≤ 0 then 1 else e.time - s.time) / (1024 * 1024))
    disk_write_mb_s := py_round2 ((e.disk_write_bytes - s.disk_write_bytes) /
      (if e.time - s.time ≤ 0 then 1 else e.time - s.time) / (1024 * 1024)) }

theorem py_round2_zero : py_round2 0 = 0 := by
  norm_num [py_round2, round_half_even]

/-! ### Claim theorems for the retry loop and the concurrency counters -/

/-- C1 counterexample: when every attempt fails with a transient error,
`_run_batch` makes exactly 3 attempts and raises, but the backoff slept
before the fatal error totals 6 seconds (the loop sleeps 2 seconds after
every failed attempt, including the third), not the claimed 4 seconds. -/
theorem retry_backoff_counterexample :
    run_batch (fun _ => StoreOutcome.transient) =
      ⟨RunResult.raisedExhausted, 3, 6⟩ ∧ (6 : ℕ) ≠ 4 := by
  constructor
  · rfl
  · decide

/-- C1 (amended): on an always-transient store, `_run_batch` makes exactly 3
attempts, never a 4th (the report only depends on the outcomes of attempts
0, 1, 2), raises the fatal exhaustion error, and sleeps 6 seconds of backoff
in total (2 seconds after each of the 3 failed attempts, including the
last).  A batch that succeeds on attempt 2 performs no backoff sleep after
the success: its total sleep is exactly the single 2-second backoff taken
before the retry. -/
theorem retry_policy_amended (execute : ℕ → StoreOutcome) :
    ((∀ n, execute n = StoreOutcome.transient) →
      run_batch execute = ⟨RunResult.raisedExhausted, 3, 6⟩) ∧
    (∀ execute2 : ℕ → StoreOutcome, (∀ n, n < 3 → execute n = execute2 n) →
      run_batch execute = run_batch execute2) ∧
    ((execute 0 = StoreOutcome.transient ∧ execute 1 = StoreOutcome.ok) →
      run_batch execute = ⟨RunResult.success, 2, 2⟩) := by
  refine ⟨?_, ?_, ?_⟩
  · intro h
    simp [run_batch, run_batch_aux, h 0, h 1, h 2]
  · intro e2 hagree
    exact run_batch_aux_congr execute e2 3 0 0 (fun n _ h2 => hagree n (by omega))
  · rintro ⟨h0, h1⟩
    simp [run_batch, run_batch_aux, h0, h1]

/-- C1 witness: the amended behaviour at two concrete stores. -/
theorem retry_policy_amended_witness :
    run_batch (fun _ => StoreOutcome.transient) =
      ⟨RunResult.raisedExhausted, 3, 6⟩ ∧
    run_batch (fun n => if n = 0 then StoreOutcome.transient else StoreOutcome.ok) =
      ⟨RunResult.success, 2, 2⟩ :=
  ⟨(retry_policy_amended _).1 (fun _ => rfl),
   (retry_policy_amended _).2.2 ⟨rfl, rfl⟩⟩

/-- C9: a non-transient error on the first attempt propagates immediately out
of `_run_batch`: one attempt, no retry, no backoff sleep. -/
theorem nontransient_propagates (execute : ℕ → StoreOutcome)
    (h : execute 0 = StoreOutcome.other) :
    run_batch execute = ⟨RunResult.raisedOther, 1, 0⟩ := by
  simp [run_batch, run_batch_aux, h]

/-- C9 witness: a store that always fails non-transiently. -/
theorem nontransient_propagates_witness :
    run_batch (fun _ => StoreOutcome.other) = ⟨RunResult.raisedOther, 1, 0⟩ :=
  nontransient_propagates (fun _ => StoreOutcome.other) rfl

/-- C2: the unsynchronized `results["ops"] += 1` loses an update.  With two
workers each completing exactly one successful lookup, the interleaving
`w0 load, w1 load, w0 store, w1 store` leaves the shared counter at 1 even
though both workers finished (sum of per-worker successes is 2); the
sequential interleaving of the same workload yields 2. -/
theorem concurrency_lost_update :
    (run_concurrency_unsync [1, 1] [0, 1, 0, 1]).shared_ops = 1 ∧
    (run_concurrency_unsync [1, 1] [0, 0, 1, 1]).shared_ops = 2 ∧
    (∀ w ∈ (run_concurrency_unsync [1, 1] [0, 1, 0, 1]).workers,
      w.ops_left = 0 ∧ w.loaded = none) ∧
    (1 : ℕ) ≠ 1 + 1 := by
  refine ⟨rfl, rfl, ?_, by decide⟩
  decide

/-- C4: for non-empty input, `_calc_percentiles` returns
`sorted[int(n*K)]` for `K ∈ {0.5, 0.9, 0.99}`; all three indices are in
bounds, `p50 ≤ p90 ≤ p99`, each value is a member of the input list; and
the empty input returns no result. -/
theorem percentiles_spec (data : List ℚ) (hne : data ≠ []) :
    (calc_percentiles [] = none) ∧
    percentile_index data.length (1/2) < data.length ∧
    percentile_index data.length (9/10) < data.length ∧
    percentile_index data.length (99/100) < data.length ∧
    ∃ p50 p90 p99,
      calc_percentiles data = some (p50, p90, p99) ∧
      p50 = (data.insertionSort (· ≤ ·)).getD (percentile_index data.length (1/2)) 0 ∧
      p90 = (data.insertionSort (· ≤ ·)).getD (percentile_index data.length (9/10)) 0 ∧
      p99 = (data.insertionSort (· ≤ ·)).getD (percentile_index data.length (99/100)) 0 ∧
      p50 ≤ p90 ∧ p90 ≤ p99 ∧ p50 ∈ data ∧ p90 ∈ data ∧ p99 ∈ data := by
  have hn : 0 < data.length := List.length_pos.mpr hne
  have hlen : (data.insertionSort (· ≤ ·)).length = data.length :=
    List.length_insertionSort (· ≤ ·) data
  have hs : (data.insertionSort (· ≤ ·)).Sorted (· ≤ ·) :=
    List.sorted_insertionSort (· ≤ ·) data
  have h50 : percentile_index data.length (1/2) < data.length :=
    percentile_index_lt data.length hn (1/2) (by norm_num)
  have h90 : percentile_index data.length (9/10) < data.length :=
    percentile_index_lt data.length hn (9/10) (by norm_num)
  have h99 : percentile_index data.length (99/100) < data.length :=
    percentile_index_lt data.length hn (99/100) (by norm_num)
  have hm1 : percentile_index data.length (1/2) ≤ percentile_index data.length (9/10) :=
    percentile_index_mono data.length (by norm_num)
  have hm2 : percentile_index data.length (9/10) ≤ percentile_index data.length (99/100) :=
    percentile_index_mono data.length (by norm_num)
  have hemp : data.isEmpty = false := by
    cases data with
    | nil => exact absurd rfl hne
    | cons a l => rfl
  refine ⟨rfl, h50, h90, h99, _, _, _, ?_, rfl, rfl, rfl, ?_, ?_, ?_, ?_, ?_⟩
  · simp [calc_percentiles, hemp]
  · exact sorted_getD_mono _ hs hm1 (hlen ▸ h90)
  · exact sorted_getD_mono _ hs hm2 (hlen ▸ h99)
  · exact (List.mem_insertionSort (· ≤ ·)).mp (getD_mem_of_lt _ (hlen ▸ h50))
  · exact (List.mem_insertionSort (· ≤ ·)).mp (getD_mem_of_lt _ (hlen ▸ h90))
  · exact (List.mem_insertionSort (· ≤ ·)).mp (getD_mem_of_lt _ (hlen ▸ h99))

/-- C4 witness: spec section 8, Scenario B — `[1..10]` gives
`p50 = 6`, `p90 = p99 = 10`, and the p99 index is in bounds. -/
theorem percentiles_spec_witness :
    percentile_index (List.length [(1 : ℚ), 2, 3, 4, 5, 6, 7, 8, 9, 10]) (99/100) <
      List.length [(1 : ℚ), 2, 3, 4, 5, 6, 7, 8, 9, 10] ∧
    calc_percentiles [(1 : ℚ), 2, 3, 4, 5, 6, 7, 8, 9, 10] = some (6, 10, 10) :=
  ⟨(percentiles_spec [(1 : ℚ), 2, 3, 4, 5, 6, 7, 8, 9, 10] (by simp)).2.2.2.1,
   by
    norm_num [calc_percentiles, percentile_index, List.insertionSort, List.orderedInsert]
    decide⟩

/-- C7: `get_metrics` returns `cpu_load_pct = 0` when `Δtotal ≤ 0` and
`round(100*(1 - Δidle/Δtotal), 2)` when `Δtotal > 0`; when the measured
duration is `≤ 0` the disk throughput divides by the clamped duration 1,
otherwise by the measured duration. -/
theorem monitor_metrics_spec (s e : Stats) :
    (e.cpu_total - s.cpu_total ≤ 0 → (get_metrics s e).cpu_load_percent = 0) ∧
    (0 < e.cpu_total - s.cpu_total →
      (get_metrics s e).cpu_load_percent =
        py_round2 (100 * (1 - (e.cpu_idle - s.cpu_idle) / (e.cpu_total - s.cpu_total)))) ∧
    (e.time - s.time ≤ 0 →
      (get_metrics s e).disk_read_mb_s =
        py_round2 ((e.disk_read_bytes - s.disk_read_bytes) / 1 / (1024 * 1024)) ∧
      (get_metrics s e).disk_write_mb_s =
        py_round2 ((e.disk_write_bytes - s.disk_write_bytes) / 1 / (1024 * 1024))) ∧
    (0 < e.time - s.time →
      (get_metrics s e).disk_read_mb_s =
        py_round2 ((e.disk_read_bytes - s.disk_read_bytes) / (e.time - s.time) / (1024 * 1024)) ∧
      (get_metrics s e).disk_write_mb_s =
        py_round2 ((e.disk_write_bytes - s.disk_write_bytes) / (e.time - s.time) / (1024 * 1024))) := by
  refine ⟨?_, ?_, ?_, ?_⟩
  · intro h
    simp [get_metrics, not_lt.mpr h, py_round2_zero]
  · intro h
    simp [get_metrics, h]
  · intro h
    simp [get_metrics, h]
  · intro h
    simp [get_metrics, not_le.mpr h]

/-- C7 witness: both sides of the `Δtotal` guard and of the duration clamp
at concrete snapshots. -/
theorem monitor_metrics_spec_witness :
    ((get_metrics ⟨0, 5, 3, 0, 0, 0, 0⟩ ⟨0, 5, 2, 0, 0, 0, 0⟩).cpu_load_percent = 0) ∧
    ((get_metrics ⟨0, 1, 1, 0, 0, 0, 0⟩ ⟨0, 5, 2, 0, 0, 0, 0⟩).cpu_load_percent =
      py_round2 (100 * (1 - (2 - 1) / ((5 : ℚ) - 1)))) ∧
    ((get_metrics ⟨7, 0, 0, 100, 200, 0, 0⟩ ⟨7, 0, 0, 300, 500, 0, 0⟩).disk_read_mb_s =
      py_round2 ((300 - 100) / 1 / ((1024 : ℚ) * 1024))) ∧
    ((get_metrics ⟨3, 0, 0, 100, 200, 0, 0⟩ ⟨7, 0, 0, 300, 500, 0, 0⟩).disk_write_mb_s =
      py_round2 ((500 - 200) / ((7 : ℚ) - 3) / (1024 * 1024))) :=
  ⟨(monitor_metrics_spec ⟨0, 5, 3, 0, 0, 0, 0⟩ ⟨0, 5, 2, 0, 0, 0, 0⟩).1 (by norm_num),
   (monitor_metrics_spec ⟨0, 1, 1, 0, 0, 0, 0⟩ ⟨0, 5, 2, 0, 0, 0, 0⟩).2.1 (by norm_num),
   ((monitor_metrics_spec ⟨7, 0, 0, 100, 200, 0, 0⟩ ⟨7, 0, 0, 300, 500, 0, 0⟩).2.2.1
      (by norm_num)).1,
   ((monitor_metrics_spec ⟨3, 0, 0, 100, 200, 0, 0⟩ ⟨7, 0, 0, 300, 500, 0, 0⟩).2.2.2
      (by norm_num)).2⟩

/-- C8: when every proc file is missing or unreadable, `_read_proc_file`
returns `""`, every raw snapshot field degrades to 0, and the capture
returns normally (no error is raised). -/
theorem monitor_degrades_to_zero (files : String → Option String) (t : ℚ)
    (h : ∀ p, files p = none) :
    capture_stats files t = Except.ok ⟨t, 0, 0, 0, 0, 0, 0⟩ := by
  have h1 : ∀ p, read_proc_file files p = "" := fun p => by
    simp [read_proc_file, h p]
  have hc : get_cpu_times "" = Except.ok (0, 0) := rfl
  have hd : get_disk_io "" = Except.ok (0, 0) := by
    show Except.ok ((0 : ℚ) * 512, (0 : ℚ) * 512) = Except.ok ((0 : ℚ), (0 : ℚ))
    norm_num
  have hm : get_mem_info "" = Except.ok (0, 0) := by
    show Except.ok ((0 : ℚ), (0 : ℚ) - (0 : ℚ)) = Except.ok ((0 : ℚ), (0 : ℚ))
    norm_num
  simp only [capture_stats, h1, hc, hd, hm]

/-- C8 witness: the fully unreadable proc filesystem. -/
theorem monitor_degrades_to_zero_witness :
    capture_stats (fun _ => none) 0 = Except.ok ⟨0, 0, 0, 0, 0, 0, 0⟩ :=
  monitor_degrades_to_zero (fun _ => none) 0 (fun _ => rfl)

/-! ### Batching invariants of the generator loops -/

theorem foldl_batch_step_flatten (bs : ℕ) (l : List α) :
    ∀ (out : List (List α)) (cur : List α),
      (l.foldl (batch_step bs) (out, cur)).1.flatten ++ (l.foldl (batch_step bs) (out, cur)).2
        = out.flatten ++ (cur ++ l) := by
  induction l with
  | nil => intro out cur; simp
  | cons r t ih =>
    intro out cur
    rw [List.foldl_cons]
    by_cases h : bs ≤ cur.length + 1
    · have hstep : batch_step bs (out, cur) r = (out ++ [cur ++ [r]], []) := by
        simp [batch_step, h]
      rw [hstep, ih]
      simp
    · have hstep : batch_step bs (out, cur) r = (out, cur ++ [r]) := by
        simp [batch_step, h]
      rw [hstep, ih]
      simp

theorem foldl_batch_step_sizes (bs : ℕ) (l : List α) :
    ∀ (out : List (List α)) (cur : List α),
      (∀ b ∈ out, b.length = bs) → cur.length < bs →
      (∀ b ∈ (l.foldl (batch_step bs) (out, cur)).1, b.length = bs) ∧
      (l.foldl (batch_step bs) (out, cur)).2.length < bs := by
  induction l with
  | nil => intro out cur hout hcur; exact ⟨hout, hcur⟩
  | cons r t ih =>
    intro out cur hout hcur
    rw [List.foldl_cons]
    by_cases h : bs ≤ cur.length + 1
    · have hlen : (cur ++ [r]).length = bs := by
        simp only [List.length_append, List.length_singleton]
        omega
      have hstep : batch_step bs (out, cur) r = (out ++ [cur ++ [r]], []) := by
        simp [batch_step, h]
      rw [hstep]
      apply ih
      · intro b hb
        rcases List.mem_append.mp hb with h1 | h1
        · exact hout b h1
        · rw [List.mem_singleton.mp h1]; exact hlen
      · simpa using Nat.lt_of_le_of_lt (Nat.zero_le _) hcur
    · have hstep : batch_step bs (out, cur) r = (out, cur ++ [r]) := by
        simp [batch_step, h]
      rw [hstep]
      apply ih _ _ hout
      simp only [List.length_append, List.length_singleton]
      omega

/-- The yielded batches concatenate back to the record stream in order, for
any batch size. -/
theorem yield_batches_flatten (bs : ℕ) (l : List α) :
    (yield_batches bs l).flatten = l := by
  have h := foldl_batch_step_flatten bs l [] []
  simp only [List.flatten_nil, List.nil_append] at h
  unfold yield_batches
  by_cases hemp : (l.foldl (batch_step bs) ([], [])).2.isEmpty
  · have h2 : (l.foldl (batch_step bs) ([], [])).2 = [] := List.isEmpty_iff.mp hemp
    rw [h2, List.append_nil] at h
    simp [hemp, h]
  · simp only [hemp, if_false, Bool.false_eq_true]
    rw [List.flatten_append]
    simpa using h

/-- For a positive batch size: every batch except possibly the last has
exactly `bs` records, and every yielded batch (the last included) is
non-empty. -/
theorem yield_batches_sizes (bs : ℕ) (hbs : 0 < bs) (l : List α) :
    (∀ b ∈ (yield_batches bs l).dropLast, b.length = bs) ∧
    (∀ b ∈ yield_batches bs l, b ≠ []) := by
  have h := foldl_batch_step_sizes bs l [] [] (by simp) (by simpa using hbs)
  unfold yield_batches
  by_cases hemp : (l.foldl (batch_step bs) ([], [])).2.isEmpty
  · simp only [hemp, if_true]
    constructor
    · intro b hb
      exact h.1 b ((List.dropLast_sublist _).subset hb)
    · intro b hb
      have hlb := h.1 b hb
      intro hnil
      rw [hnil] at hlb
      simp at hlb
      omega
  · simp only [hemp, if_false, Bool.false_eq_true]
    constructor
    · intro b hb
      rw [List.dropLast_concat] at hb
      exact h.1 b hb
    · intro b hb
      rcases List.mem_append.mp hb with h1 | h1
      · have hlb := h.1 b h1
        intro hnil
        rw [hnil] at hlb
        simp at hlb
        omega
      · rw [List.mem_singleton.mp h1]
        intro hnil
        rw [hnil] at hemp
        simp at hemp

/-- C6: for `batch_size > 0`, both generators yield a finite list of batches
whose concatenation is exactly the requested records in generation order
(`count` of them); every batch except possibly the last has exactly
`batch_size` records, and every yielded batch — the final partial one
included — is non-empty. -/
theorem generator_batching (bs : ℕ) (hbs : 0 < bs) :
    (∀ (num_accounts : ℕ) (start_time : ℤ) (rand : ℕ → ℤ),
      (generate_accounts num_accounts start_time rand bs).flatten
          = (List.range num_accounts).map (fun i => account_record start_time i (rand i)) ∧
      ((generate_accounts num_accounts start_time rand bs).flatten).length = num_accounts ∧
      (∀ b ∈ (generate_accounts num_accounts start_time rand bs).dropLast, b.length = bs) ∧
      (∀ b ∈ generate_accounts num_accounts start_time rand bs, b ≠ [])) ∧
    (∀ (num_accounts num_transactions : ℕ) (start_time : ℤ)
        (uTime : ℕ → ℝ) (uAmt uFrom uTo : ℕ → ℚ),
      (generate_transactions num_accounts num_transactions start_time uTime uAmt uFrom uTo bs).flatten
          = (List.range num_transactions).map (fun i =>
              transaction_record num_accounts start_time i (uTime i) (uAmt i) (uFrom i) (uTo i)) ∧
      ((generate_transactions num_accounts num_transactions start_time uTime uAmt uFrom uTo bs).flatten).length
          = num_transactions ∧
      (∀ b ∈ (generate_transactions num_accounts num_transactions start_time uTime uAmt uFrom uTo bs).dropLast,
        b.length = bs) ∧
      (∀ b ∈ generate_transactions num_accounts num_transactions start_time uTime uAmt uFrom uTo bs,
        b ≠ [])) := by
  constructor
  · intro num_accounts start_time rand
    have h1 : (generate_accounts num_accounts start_time rand bs).flatten
        = (List.range num_accounts).map (fun i => account_record start_time i (rand i)) :=
      yield_batches_flatten bs _
    refine ⟨h1, ?_, (yield_batches_sizes bs hbs _).1, (yield_batches_sizes bs hbs _).2⟩
    rw [h1]
    simp
  · intro num_accounts num_transactions start_time uTime uAmt uFrom uTo
    have h1 : (generate_transactions num_accounts num_transactions start_time uTime uAmt uFrom uTo bs).flatten
        = (List.range num_transactions).map (fun i =>
            transaction_record num_accounts start_time i (uTime i) (uAmt i) (uFrom i) (uTo i)) :=
      yield_batches_flatten bs _
    refine ⟨h1, ?_, (yield_batches_sizes bs hbs _).1, (yield_batches_sizes bs hbs _).2⟩
    rw [h1]
    simp

/-- C6 witness: 7 account records in batches of 3 (batches of sizes 3,3,1). -/
theorem generator_batching_witness :
    (generate_accounts 7 0 (fun _ => 0) 3).flatten
        = (List.range 7).map (fun i => account_record 0 i 0) ∧
    ((generate_accounts 7 0 (fun _ => 0) 3).flatten).length = 7 ∧
    (∀ b ∈ (generate_accounts 7 0 (fun _ => 0) 3).dropLast, b.length = 3) ∧
    (∀ b ∈ generate_accounts 7 0 (fun _ => 0) 3, b ≠ []) :=
  (generator_batching 3 (by decide)).1 7 0 (fun _ => 0)

/-! ### Claims on the skew maps -/

theorem floor_skew_bounds (num_accounts S : ℕ) (u : ℚ)
    (hu0 : 0 ≤ u) (hu1 : u < 1) (hN : 0 < num_accounts) (hS : 0 < S) :
    0 ≤ pick_account_id_skew num_accounts S u ∧
    pick_account_id_skew num_accounts S u < num_accounts := by
  unfold pick_account_id_skew
  constructor
  · exact Int.floor_nonneg.mpr (mul_nonneg (by positivity) (pow_nonneg hu0 S))
  · apply Int.floor_lt.mpr
    push_cast
    calc (num_accounts : ℚ) * u ^ S
        < (num_accounts : ℚ) * 1 :=
          mul_lt_mul_of_pos_left (pow_lt_one₀ hu0 hu1 hS.ne') (by exact_mod_cast hN)
      _ = num_accounts := mul_one _

/-- C3: for `u ∈ [0,1)`, any skew exponent `S > 0` and `N > 0`, the skewed
account pick `int(N * u ** S)` lies in `[0, N)`; in particular for the
generator's `S = ZIPF_SKEW`, and hence every generated transaction has
`0 ≤ from_acc < num_accounts` and `0 ≤ to_acc < num_accounts`. -/
theorem zipf_pick_in_range (num_accounts S : ℕ) (u : ℚ)
    (hu0 : 0 ≤ u) (hu1 : u < 1) (hN : 0 < num_accounts) (hS : 0 < S) :
    (0 ≤ pick_account_id_skew num_accounts S u ∧
      pick_account_id_skew num_accounts S u < num_accounts) ∧
    (0 ≤ pick_account_id num_accounts u ∧ pick_account_id num_accounts u < num_accounts) ∧
    (∀ (count bs : ℕ) (start_time : ℤ) (uTime : ℕ → ℝ) (uAmt uFrom uTo : ℕ → ℚ),
      (∀ i, 0 ≤ uFrom i ∧ uFrom i < 1) → (∀ i, 0 ≤ uTo i ∧ uTo i < 1) →
      ∀ tx ∈ (generate_transactions num_accounts count start_time uTime uAmt uFrom uTo bs).flatten,
        (0 ≤ tx.from_acc ∧ tx.from_acc < num_accounts) ∧
        (0 ≤ tx.to_acc ∧ tx.to_acc < num_accounts)) := by
  have hz : (0 : ℕ) < ZIPF_SKEW := by norm_num [ZIPF_SKEW]
  refine ⟨floor_skew_bounds num_accounts S u hu0 hu1 hN hS,
    floor_skew_bounds num_accounts ZIPF_SKEW u hu0 hu1 hN hz, ?_⟩
  intro count bs start_time uTime uAmt uFrom uTo hF hT tx htx
  unfold generate_transactions at htx
  rw [yield_batches_flatten] at htx
  rcases List.mem_map.mp htx with ⟨i, _, rfl⟩
  simp only [transaction_record, pick_account_id]
  exact ⟨floor_skew_bounds num_accounts ZIPF_SKEW (uFrom i) (hF i).1 (hF i).2 hN hz,
         floor_skew_bounds num_accounts ZIPF_SKEW (uTo i) (hT i).1 (hT i).2 hN hz⟩

/-- C3 witness: spec section 8, Scenario A — `N = 10`, `S = 2`, `u = 0.5`
gives index `int(10 * 0.25) = 2`, inside `[0, 10)`. -/
theorem zipf_pick_in_range_witness :
    (0 ≤ pick_account_id 10 (1/2) ∧ pick_account_id 10 (1/2) < 10) ∧
    pick_account_id 10 (1/2) = 2 := by
  refine ⟨(zipf_pick_in_range 10 2 (1/2) (by norm_num) (by norm_num) (by norm_num)
    (by norm_num)).2.1, ?_⟩
  show (⌊(10 : ℚ) * (1/2 : ℚ) ^ ZIPF_SKEW⌋ : ℤ) = 2
  rw [show ((10 : ℚ) * (1/2 : ℚ) ^ ZIPF_SKEW) = 5/2 by norm_num [ZIPF_SKEW]]
  rw [Int.floor_eq_iff]
  norm_num

/-- C5: for `u ∈ [0,1)` the recency offset `int(YearSeconds * sqrt(u))` lies
in `[0, YearSeconds)`, so every generated transaction timestamp
`ts = start_time + offset` falls inside `[start_time, start_time + YearSeconds)`. -/
theorem temporal_offset_in_window (u : ℝ) (hu0 : 0 ≤ u) (hu1 : u < 1) :
    (0 ≤ temporal_offset u ∧ temporal_offset u < yearSeconds) ∧
    (∀ (num_accounts count bs : ℕ) (start_time : ℤ)
        (uTime : ℕ → ℝ) (uAmt uFrom uTo : ℕ → ℚ),
      (∀ i, 0 ≤ uTime i ∧ uTime i < 1) →
      ∀ tx ∈ (generate_transactions num_accounts count start_time uTime uAmt uFrom uTo bs).flatten,
        start_time ≤ tx.ts ∧ tx.ts < start_time + yearSeconds) := by
  have key : ∀ v : ℝ, 0 ≤ v → v < 1 →
      0 ≤ temporal_offset v ∧ temporal_offset v < yearSeconds := by
    intro v h0 h1
    unfold temporal_offset
    constructor
    · exact Int.floor_nonneg.mpr (mul_nonneg (by positivity) (Real.sqrt_nonneg v))
    · apply Int.floor_lt.mpr
      push_cast
      have hs : Real.sqrt v < 1 := by
        rw [Real.sqrt_lt' one_pos]
        norm_num [h1]
      calc (yearSeconds : ℝ) * Real.sqrt v
          < (yearSeconds : ℝ) * 1 :=
            mul_lt_mul_of_pos_left hs (by norm_num [yearSeconds])
        _ = yearSeconds := mul_one _
  refine ⟨key u hu0 hu1, ?_⟩
  intro num_accounts count bs start_time uTime uAmt uFrom uTo hT tx htx
  unfold generate_transactions at htx
  rw [yield_batches_flatten] at htx
  rcases List.mem_map.mp htx with ⟨i, _, rfl⟩
  have hk := key (uTime i) (hT i).1 (hT i).2
  simp only [transaction_record]
  omega

/-- C5 witness: the offset bounds at `u = 0`. -/
theorem temporal_offset_in_window_witness :
    0 ≤ temporal_offset 0 ∧ temporal_offset 0 < yearSeconds :=
  (temporal_offset_in_window 0 le_rfl (by norm_num)).1

/-! ### src/neo4j_bench_optimized.py

`OptimizedBenchmark._calc_percentiles` (lines 457-465) and the optimized
variant's `SystemMonitor.get_metrics` (lines 107-128), embedded separately
(their Python bodies are textually identical to the flat variant's). -/

namespace Optimized

/-- `OptimizedBenchmark._calc_percentiles`. -/
def calc_percentiles (data : List ℚ) : Option (ℚ × ℚ × ℚ) :=
  if data.isEmpty then none
  else
    some ((data.insertionSort (· ≤ ·)).getD (percentile_index data.length (1/2)) 0,
          (data.insertionSort (· ≤ ·)).getD (percentile_index data.length (9/10)) 0,
          (data.insertionSort (· ≤ ·)).getD (percentile_index data.length (99/100)) 0)

/-- `SystemMonitor.get_metrics` of the optimized variant. -/
def get_metrics (s e : Stats) : Metrics :=
  { cpu_load_percent :=
      py_round2 (if 0 < e.cpu_total - s.cpu_total
        then 100 * (1 - (e.cpu_idle - s.cpu_idle) / (e.cpu_total - s.cpu_total))
        else 0)
    memory_used_gb := py_round2 (e.mem_used_kb / (1024 * 1024))
    disk_read_mb_s := py_round2 ((e.disk_read_bytes - s.disk_read_bytes) /
      (if e.time - s.time ≤ 0 then 1 else e.time - s.time) / (1024 * 1024))
    disk_write_mb_s := py_round2 ((e.disk_write_bytes - s.disk_write_bytes) /
      (if e.time - s.time ≤ 0 then 1 else e.time - s.time) / (1024 * 1024)) }

end Optimized

/-- C10: the flat and optimized variants implement the shared core
identically — their percentile computations and their resource-metric
derivations are extensionally equal functions. -/
theorem variants_extensionally_equal :
    (∀ data : List ℚ, Optimized.calc_percentiles data = calc_percentiles data) ∧
    (∀ s e : Stats, Optimized.get_metrics s e = get_metrics s e) :=
  ⟨fun _ => rfl, fun _ _ => rfl⟩

end Neo4jBench
